import Mathlib

/-!
Verification of the freva-nextgen databrowser core against its
natural-language specification.

The definitions below are a shallow embedding of the relevant parts of the
source code, principally
`freva-rest/src/freva_rest/databrowser_api/core.py` (the `Translator` and
`Solr` classes), `freva-rest/src/databrowser_api/endpoints.py`
(the `intake_catalogue` endpoint) and
`freva-data-portal-worker/src/data_portal_worker/zarr_utils.py`
(`get_data_chunk`).  Python dictionaries are embedded as association
lists with Python's overwrite-on-insert semantics, strings as Lean
`String`s, and `str.replace` as a recursive function on character lists.
-/

deriving instance DecidableEq for Except

namespace Freva

/-! ## Python dictionary semantics -/

/-- Insert a key/value pair into an association list with Python's
`dict` semantics: if the key is present its value is overwritten in
place, otherwise the pair is appended at the end. -/
def pyInsert {α : Type} (d : List (String × α)) (kv : String × α) :
    List (String × α) :=
  if d.any (fun p => p.1 = kv.1) then
    d.map (fun p => if p.1 = kv.1 then (p.1, kv.2) else p)
  else
    d ++ [kv]

/-- Build a Python dictionary from a list of key/value pairs (later
occurrences of a key overwrite earlier ones, as in a `dict`
comprehension). -/
def pyDict {α : Type} (l : List (String × α)) : List (String × α) :=
  l.foldl pyInsert []

/-- Python's `d.get(k, k)`-style lookup used by the translator:
return the stored value, or the key itself when absent. -/
def pyGetD (d : List (String × String)) (k : String) : String :=
  match d.lookup k with
  | some v => v
  | none => k

/-! ## Translator (flavour translation tables)

Transcribed from the `Translator` dataclass in
`freva_rest/databrowser_api/core.py`. -/

namespace Translator

/-- `Translator.flavours`. -/
def flavours : List String :=
  ["freva", "cmip6", "cmip5", "cordex", "nextgems", "user"]

/-- `Translator._freva_facets`: the canonical facets with their
primary/secondary relevance. -/
def frevaFacets : List (String × String) :=
  [("project", "primary"),
   ("product", "primary"),
   ("institute", "primary"),
   ("model", "primary"),
   ("experiment", "primary"),
   ("time_frequency", "primary"),
   ("realm", "primary"),
   ("variable", "primary"),
   ("ensemble", "primary"),
   ("time_aggregation", "primary"),
   ("fs_type", "secondary"),
   ("grid_label", "secondary"),
   ("cmor_table", "secondary"),
   ("driving_model", "secondary"),
   ("format", "secondary"),
   ("grid_id", "secondary"),
   ("level_type", "secondary"),
   ("rcm_name", "secondary"),
   ("rcm_version", "secondary"),
   ("dataset", "secondary"),
   ("time", "secondary"),
   ("bbox", "secondary"),
   ("user", "secondary")]

/-- `Translator._cmip5_lookup`. -/
def cmip5Lookup : List (String × String) :=
  [("experiment", "experiment"),
   ("ensemble", "member_id"),
   ("fs_type", "fs_type"),
   ("grid_label", "grid_label"),
   ("institute", "institution_id"),
   ("model", "model_id"),
   ("project", "project"),
   ("product", "product"),
   ("realm", "realm"),
   ("variable", "variable"),
   ("time", "time"),
   ("bbox", "bbox"),
   ("time_aggregation", "time_aggregation"),
   ("time_frequency", "time_frequency"),
   ("cmor_table", "cmor_table"),
   ("dataset", "dataset"),
   ("driving_model", "driving_model"),
   ("format", "format"),
   ("grid_id", "grid_id"),
   ("level_type", "level_type"),
   ("rcm_name", "rcm_name"),
   ("rcm_version", "rcm_version")]

/-- `Translator._cmip6_lookup`. -/
def cmip6Lookup : List (String × String) :=
  [("experiment", "experiment_id"),
   ("ensemble", "member_id"),
   ("fs_type", "fs_type"),
   ("grid_label", "grid_label"),
   ("institute", "institution_id"),
   ("model", "source_id"),
   ("project", "mip_era"),
   ("product", "activity_id"),
   ("realm", "realm"),
   ("variable", "variable_id"),
   ("time", "time"),
   ("bbox", "bbox"),
   ("time_aggregation", "time_aggregation"),
   ("time_frequency", "frequency"),
   ("cmor_table", "table_id"),
   ("dataset", "dataset"),
   ("driving_model", "driving_model"),
   ("format", "format"),
   ("grid_id", "grid_id"),
   ("level_type", "level_type"),
   ("rcm_name", "rcm_name"),
   ("rcm_version", "rcm_version")]

/-- `Translator._cordex_lookup`. -/
def cordexLookup : List (String × String) :=
  [("experiment", "experiment"),
   ("ensemble", "ensemble"),
   ("fs_type", "fs_type"),
   ("grid_label", "grid_label"),
   ("institute", "institution"),
   ("model", "model"),
   ("project", "project"),
   ("product", "domain"),
   ("realm", "realm"),
   ("variable", "variable"),
   ("time", "time"),
   ("bbox", "bbox"),
   ("time_aggregation", "time_aggregation"),
   ("time_frequency", "time_frequency"),
   ("cmor_table", "cmor_table"),
   ("dataset", "dataset"),
   ("driving_model", "driving_model"),
   ("format", "format"),
   ("grid_id", "grid_id"),
   ("level_type", "level_type"),
   ("rcm_name", "rcm_name"),
   ("rcm_version", "rcm_version")]

/-- `Translator._nextgems_lookup`. -/
def nextgemsLookup : List (String × String) :=
  [("experiment", "experiment"),
   ("ensemble", "member_id"),
   ("fs_type", "fs_type"),
   ("grid_label", "grid_label"),
   ("institute", "institution_id"),
   ("model", "source_id"),
   ("project", "project"),
   ("product", "experiment_id"),
   ("realm", "realm"),
   ("variable", "variable_id"),
   ("time", "time"),
   ("bbox", "bbox"),
   ("time_aggregation", "time_reduction"),
   ("time_frequency", "time_frequency"),
   ("cmor_table", "cmor_table"),
   ("dataset", "dataset"),
   ("driving_model", "driving_model"),
   ("format", "format"),
   ("grid_id", "grid_id"),
   ("level_type", "level_type"),
   ("rcm_name", "rcm_name"),
   ("rcm_version", "rcm_version")]

/-- `Translator.forward_lookup`: the forward translation table of a
flavour.  `freva` and `user` use the identity on the canonical facet
names. -/
def forwardLookup (flavour : String) : List (String × String) :=
  match flavour with
  | "freva" => frevaFacets.map (fun kv => (kv.1, kv.1))
  | "cmip6" => cmip6Lookup
  | "cmip5" => cmip5Lookup
  | "cordex" => cordexLookup
  | "nextgems" => nextgemsLookup
  | "user" => frevaFacets.map (fun kv => (kv.1, kv.1))
  | _ => []

/-- `Translator.backward_lookup`: `{v: k for (k, v) in
self.forward_lookup.items()}`. -/
def backwardLookup (flavour : String) : List (String × String) :=
  pyDict ((forwardLookup flavour).map (fun kv => (kv.2, kv.1)))

/-- One step of `Translator.translate_facets` for a single facet name:
`lookup.get(f, f)` on the forward (`backwards = False`) or backward
(`backwards = True`) table; the identity when `translate` is off. -/
def translateFacet (flavour : String) (translate : Bool)
    (backwards : Bool) (f : String) : String :=
  if translate then
    if backwards then pyGetD (backwardLookup flavour) f
    else pyGetD (forwardLookup flavour) f
  else f

/-- `Translator.translate_query`: rename the keys of a query map. -/
def translateQuery (flavour : String) (translate : Bool)
    (backwards : Bool) (query : List (String × List String)) :
    List (String × List String) :=
  pyDict (query.map (fun kv => (translateFacet flavour translate backwards kv.1, kv.2)))

end Translator

/-! ## String helpers (Python string methods on character lists) -/

/-- Recursion core of `replaceList`; `fuel` bounds the recursion depth
(any fuel of at least the list's length gives the same result), so that
the function is structurally recursive and evaluates by reduction. -/
def replaceListAux (pat rep : List Char) : Nat → List Char → List Char
  | _, [] => []
  | 0, l => l
  | fuel + 1, c :: rest =>
    if pat ≠ [] ∧ pat.isPrefixOf (c :: rest) then
      rep ++ replaceListAux pat rep fuel ((c :: rest).drop pat.length)
    else
      c :: replaceListAux pat rep fuel rest

/-- Python's `str.replace`: replace every non-overlapping occurrence of
`pat` by `rep`, scanning left to right.  (The source never calls it with
an empty pattern; for an empty pattern this embedding is the
identity.) -/
def replaceList (pat rep l : List Char) : List Char :=
  replaceListAux pat rep l.length l

theorem replaceListAux_nil (pat rep : List Char) (fuel : Nat) :
    replaceListAux pat rep fuel [] = [] := by
  cases fuel <;> rfl

theorem replaceListAux_irrel (pat rep : List Char) :
    ∀ (f1 : Nat) (l : List Char) (f2 : Nat), l.length ≤ f1 → l.length ≤ f2 →
      replaceListAux pat rep f1 l = replaceListAux pat rep f2 l := by
  intro f1
  induction f1 with
  | zero =>
    intro l f2 h1 _
    have hl : l = [] := List.length_eq_zero.mp (Nat.le_zero.mp h1)
    subst hl
    rw [replaceListAux_nil, replaceListAux_nil]
  | succ f ih =>
    intro l f2 h1 h2
    match l, f2 with
    | [], f2 => rw [replaceListAux_nil, replaceListAux_nil]
    | c :: rest, 0 => simp at h2
    | c :: rest, g + 1 =>
      simp only [replaceListAux]
      by_cases hp : pat ≠ [] ∧ pat.isPrefixOf (c :: rest)
      · rw [if_pos hp, if_pos hp]
        have hpat : 0 < pat.length := List.length_pos.mpr hp.1
        have hd : ((c :: rest).drop pat.length).length ≤ f := by
          simp only [List.length_drop, List.length_cons]
          simp only [List.length_cons] at h1
          omega
        have hd2 : ((c :: rest).drop pat.length).length ≤ g := by
          simp only [List.length_drop, List.length_cons]
          simp only [List.length_cons] at h2
          omega
        rw [ih _ _ hd hd2]
      · rw [if_neg hp, if_neg hp]
        simp only [List.length_cons] at h1 h2
        rw [ih rest g (by omega) (by omega)]

theorem replaceList_cons (pat rep : List Char) (c : Char) (rest : List Char) :
    replaceList pat rep (c :: rest) =
      if pat ≠ [] ∧ pat.isPrefixOf (c :: rest) then
        rep ++ replaceList pat rep ((c :: rest).drop pat.length)
      else
        c :: replaceList pat rep rest := by
  unfold replaceList
  simp only [List.length_cons, replaceListAux]
  by_cases hp : pat ≠ [] ∧ pat.isPrefixOf (c :: rest)
  · rw [if_pos hp, if_pos hp]
    have hpat : 0 < pat.length := List.length_pos.mpr hp.1
    rw [replaceListAux_irrel pat rep rest.length _
      ((c :: rest).drop pat.length).length
      (by simp only [List.length_drop, List.length_cons]; omega) (le_refl _)]
  · rw [if_neg hp, if_neg hp]

/-- `str.replace` on `String`s. -/
def pyReplace (s pat rep : String) : String :=
  ⟨replaceList pat.data rep.data s.data⟩

/-- Recursion core of `splitOnList`, fuelled like `replaceListAux`. -/
def splitOnListAux (pat : List Char) : Nat → List Char → List (List Char)
  | _, [] => [[]]
  | 0, l => [l]
  | fuel + 1, c :: rest =>
    if pat ≠ [] ∧ pat.isPrefixOf (c :: rest) then
      [] :: splitOnListAux pat fuel ((c :: rest).drop pat.length)
    else
      match splitOnListAux pat fuel rest with
      | [] => [[c]]
      | h :: t => (c :: h) :: t

/-- Python's `str.split(sep)` on character lists (all occurrences of the
separator, left to right). -/
def splitOnList (pat l : List Char) : List (List Char) :=
  splitOnListAux pat l.length l

/-- `str.split(sep)` on `String`s. -/
def pySplit (s sep : String) : List String :=
  (splitOnList sep.data s.data).map (fun l => ⟨l⟩)

/-- Python's `sep.join(l)`. -/
def pyJoin (sep : String) : List String → String
  | [] => ""
  | a :: rest => rest.foldl (fun acc x => acc ++ sep ++ x) a

/-- Python's `str.partition(sep)`, restricted to the first two
components: split at the first occurrence of `sep`; when `sep` does not
occur, the second component is empty. -/
def pyPartition2 (s sep : String) : String × String :=
  match pySplit s sep with
  | [] => (s, "")
  | [x] => (x, "")
  | x :: y :: rest => (x, pyJoin sep (y :: rest))

/-- `"".join(s.split())`: remove all whitespace. -/
def stripWhitespace (s : String) : String :=
  ⟨s.data.filter (fun c => !c.isWhitespace)⟩

/-- `s.startswith(p)` via character lists. -/
def strStartsWith (s p : String) : Bool :=
  p.data.isPrefixOf s.data

/-- Substring search on character lists: does `sub` occur in `l`? -/
def listContainsSub (l sub : List Char) : Bool :=
  match l with
  | [] => sub.isEmpty
  | _ :: rest => sub.isPrefixOf l || listContainsSub rest sub

/-- Python's `sub in s` substring containment. -/
def strContains (s sub : String) : Bool :=
  listContainsSub s.data sub.data

/-- Python's `s[n:]` slicing (`str.drop`) via the character list. -/
def pyDrop (s : String) (n : Nat) : String :=
  ⟨s.data.drop n⟩

/-- `str.lower()` via the character list (ASCII case folding as used by
the source's facet names and values). -/
def pyToLower (s : String) : String :=
  ⟨s.data.map Char.toLower⟩

/-- The numeric value of a list of decimal digit characters. -/
def charsToNat (l : List Char) : Nat :=
  l.foldl (fun n c => n * 10 + (c.toNat - 48)) 0

/-! ## Server configuration (`freva_rest/config.py`) -/

/-- The slice of `ServerConfig` that the query compiler reads:
`solr_url` (the normalised server url) and `solr_core` (the
multi-version core name). -/
structure ServerConfig where
  solrUrl : String
  solrCore : String
deriving DecidableEq, Repr

/-- `ServerConfig.solr_cores`: `(self.solr_core, "latest")`. -/
def ServerConfig.solrCores (cfg : ServerConfig) : List String :=
  [cfg.solrCore, "latest"]

/-- `ServerConfig.get_core_url`. -/
def ServerConfig.getCoreUrl (cfg : ServerConfig) (core : String) : String :=
  cfg.solrUrl ++ "/solr/" ++ core

/-! ## Solr query compiler (`Solr` class of
`freva_rest/databrowser_api/core.py`) -/

namespace Solr

/-- `Solr.uniq_keys`. -/
def uniqKeys : List String := ["file", "uri"]

/-- `Solr.batch_size`: maximum solr batch query size for one single
query result. -/
def batchSize : Nat := 150

/-- `Solr.escape_chars`: the Lucene (solr) special characters that need
escaping. -/
def escapeChars : List String :=
  ["+", "-", "&&", "||", "!", "(", ")", "\x7b", "\x7d", "[", "]", "^",
   "~", ":", "/"]

/-- The escaping loop of `Solr._join_facet_queries` (lines 1080-1082):
`value.replace(char, "\\" + char)` folded over `escape_chars`. -/
def luceneEscape (s : String) : String :=
  escapeChars.foldl (fun acc c => pyReplace acc c ("\\" ++ c)) s

/-- The value-partitioning loop of `Solr._join_facet_queries`: values are
lowercased unless the facet is a uniq key, then classified as negated
(leading `not `, `!` or `-`, or a `_not_` key) or positive.  (The source
indexes `search_value[0]`, which raises on an empty value; an empty value
is classified positive here.) -/
def partitionFacetValues (key : String) : List String → List String × List String
  | [] => ([], [])
  | searchValue :: rest =>
    let (negative, positive) := partitionFacetValues key rest
    let sv := if key ∈ uniqKeys then searchValue else pyToLower searchValue
    if strStartsWith (pyToLower sv) "not " then
      (pyDrop sv 4 :: negative, positive)
    else if strStartsWith sv "!" ∨ strStartsWith sv "-" then
      (pyDrop sv 1 :: negative, positive)
    else if strContains key "_not_" then
      (sv :: negative, positive)
    else
      (negative, sv :: positive)

/-- `Solr._join_facet_queries`: build the positive and negative lucene
value strings for one facet. -/
def joinFacetQueries (key : String) (facets : List String) : String × String :=
  let (negative, positive) := partitionFacetValues key facets
  let searchValuePos := pyJoin " OR " positive
  let searchValueNeg := pyJoin " OR " negative
  (luceneEscape searchValuePos, luceneEscape searchValueNeg)

/-- The compiled solr query parameter dictionary (`self.query`); absent
dictionary keys are `none`. -/
structure SolrQuery where
  q : String := "*:*"
  fq : List String := []
  fl : List String := []
  rows : Option Nat := none
  wt : Option String := none
  start : Option Int := none
  sort : Option String := none
  cursorMark : Option String := none
deriving DecidableEq, Repr

/-- `Solr._get_url`: compile the target core url and the query
parameters from the object's facets, time and bbox predicates, flavour
and version policy.  Python's `None` entry in `filter_queries` is
represented by the empty string: both are dropped by the truthiness
filter `[q for q in filter_queries if q]`. -/
def getUrl (cfg : ServerConfig) (facets : List (String × List String))
    (time bbox : List String) (flavour : String) (multiVersion : Bool) :
    String × SolrQuery :=
  let core := if multiVersion then cfg.solrCores.headD "" else cfg.solrCores.getLastD ""
  let url := cfg.getCoreUrl core ++ "/select/"
  let query := facets.foldl (fun q kv =>
    let (queryPos, queryNeg) := joinFacetQueries kv.1 kv.2
    let key := pyReplace (pyToLower kv.1) "_not_" ""
    let q := if queryPos ≠ "" then q ++ [key ++ ":(" ++ queryPos ++ ")"] else q
    if queryNeg ≠ "" then q ++ ["-" ++ key ++ ":(" ++ queryNeg ++ ")"] else q) []
  let userQuery :=
    if flavour = "user" then "user:*" else "\x7b!ex=userTag\x7d-user:*"
  let baseQuery := if time = [] ∧ bbox = [] then "*:*" else ""
  let joinedQuery :=
    if query ≠ [] then pyJoin " AND " query else baseQuery
  let filterQueries := time ++ bbox ++ [userQuery, joinedQuery]
  (url, { q := "*:*", fq := filterQueries.filter (fun fq => fq ≠ "") })

end Solr

/-! ## Record-level semantics of the user-scope filter

The solr index itself is an external system; the following definitions
model, from its query interface, how the two user-scope clauses emitted
by `Solr._get_url` match a document's `user` field. -/

/-- Strip a leading `\x7b!...\x7d` solr local-params group (such as the
`\x7b!ex=userTag\x7d` facet-tag exclusion) from a filter clause.  Local
params direct faceting; they do not change which documents the remaining
query matches. -/
def stripLocalParams (clause : String) : String :=
  if strStartsWith clause "\x7b!" then
    match clause.data.dropWhile (fun c => c ≠ '\x7d') with
    | [] => clause
    | _ :: rest => ⟨rest⟩
  else clause

/-- Modelled from the solr query interface: whether a filter clause
constrains a document's `user` field (`none` = the document has no
`user` field, `some u` = it carries owner `u`).  `user:*` matches
documents having the field, a leading `-` negates, and a clause about
anything else leaves the `user` field unconstrained. -/
def userScopeMatches (clause : String) (user : Option String) : Bool :=
  let c := stripLocalParams clause
  if c = "user:*" then user.isSome
  else if c = "-user:*" then user.isNone
  else true

/-! ## Instant parsing (`dateutil.parser.parse`) and the time/bbox
predicates -/

/-- A `fastapi.HTTPException`. -/
structure HTTPException where
  statusCode : Nat
  detail : String
deriving DecidableEq, Repr


/-- A naive Python `datetime`. -/
structure PyDatetime where
  year : Nat
  month : Nat
  day : Nat
  hour : Nat
  minute : Nat
  second : Nat
deriving DecidableEq, Repr

/-- `datetime(1, 1, 1, 0, 0, 0)`: the default for a missing start. -/
def defaultStart : PyDatetime := ⟨1, 1, 1, 0, 0, 0⟩

/-- `datetime(9999, 12, 31, 23, 59, 59)`: the default for a missing
end. -/
def defaultEnd : PyDatetime := ⟨9999, 12, 31, 23, 59, 59⟩

/-- Zero-pad a number to two digits. -/
def pad2 (n : Nat) : String :=
  if n < 10 then "0" ++ toString n else toString n

/-- Zero-pad a number to four digits. -/
def pad4 (n : Nat) : String :=
  if n < 10 then "000" ++ toString n
  else if n < 100 then "00" ++ toString n
  else if n < 1000 then "0" ++ toString n
  else toString n

/-- `datetime.isoformat()` (no sub-second part, as in the source's
whole-second instants). -/
def PyDatetime.isoformat (d : PyDatetime) : String :=
  pad4 d.year ++ "-" ++ pad2 d.month ++ "-" ++ pad2 d.day ++ "T" ++
    pad2 d.hour ++ ":" ++ pad2 d.minute ++ ":" ++ pad2 d.second

/-- Parse a bounded all-digit numeral. -/
def digitsToNat? (s : String) (maxLen : Nat) (lo hi : Nat) : Option Nat :=
  if s.length = 0 ∨ s.length > maxLen ∨ ¬s.data.all Char.isDigit then none
  else
    let n := charsToNat s.data
    if lo ≤ n ∧ n ≤ hi then some n else none

/-- Modelled from the `dateutil.parser.parse` interface (an external
library) on the inputs the endpoint accepts: ISO-8601-style instants
`YYYY[-MM[-DD[THH[:MM[:SS]]]]]` (the `T` already lowercased by the
caller), with unspecified components taken from `default`.  A bare
numeral is read the way `dateutil` reads it: four digits are a year,
one or two digits are a day of month.  Anything else is a
`ParserError`. -/
def parseInstant (s : String) (default : PyDatetime) :
    Except String PyDatetime :=
  let err : Except String PyDatetime :=
    .error ("Unknown string format: " ++ s)
  if s.length ≠ 0 ∧ s.data.all Char.isDigit then
    let n := charsToNat s.data
    if s.length = 4 then .ok { default with year := n }
    else if s.length ≤ 2 ∧ 1 ≤ n ∧ n ≤ 31 then .ok { default with day := n }
    else err
  else
    let (datePart, timePart) := pyPartition2 s "t"
    let withDate : Option PyDatetime :=
      match (splitOnList ['-'] datePart.data).map (fun l => (⟨l⟩ : String)) with
      | [y] =>
        (digitsToNat? y 4 1000 9999).map (fun yv => { default with year := yv })
      | [y, m] =>
        match digitsToNat? y 4 1000 9999, digitsToNat? m 2 1 12 with
        | some yv, some mv => some { default with year := yv, month := mv }
        | _, _ => none
      | [y, m, d] =>
        match digitsToNat? y 4 1000 9999, digitsToNat? m 2 1 12,
            digitsToNat? d 2 1 31 with
        | some yv, some mv, some dv =>
          some { default with year := yv, month := mv, day := dv }
        | _, _, _ => none
      | _ => none
    match withDate with
    | none => err
    | some dt =>
      if timePart = "" then .ok dt
      else
        match (splitOnList [':'] timePart.data).map (fun l => (⟨l⟩ : String)) with
        | [h] =>
          match digitsToNat? h 2 0 23 with
          | some hv => .ok { dt with hour := hv, minute := 0, second := 0 }
          | none => err
        | [h, mi] =>
          match digitsToNat? h 2 0 23, digitsToNat? mi 2 0 59 with
          | some hv, some miv => .ok { dt with hour := hv, minute := miv, second := 0 }
          | _, _ => err
        | [h, mi, sec] =>
          match digitsToNat? h 2 0 23, digitsToNat? mi 2 0 59,
              digitsToNat? sec 2 0 59 with
          | some hv, some miv, some sv =>
            .ok { dt with hour := hv, minute := miv, second := sv }
          | _, _, _ => err
        | _ => err

namespace Solr

/-- The `time_select`/`bbox_select` table of `adjust_time_string` and
`adjust_bbox_string`. -/
def selectMethods : List (String × String) :=
  [("strict", "Within"), ("flexible", "Intersects"), ("file", "Contains")]

/-- The f-string
`f"\x7b\x7b!field f=time op=\x7bsolr_select\x7d\x7d\x7d[\x7bstart\x7d TO \x7bend\x7d]"`
of `adjust_time_string`. -/
def timeRangeClause (solrSelect startIso endIso : String) : String :=
  "\x7b!field f=time op=" ++ solrSelect ++ "\x7d[" ++ startIso ++ " TO " ++
    endIso ++ "]"

/-- `Solr.adjust_time_string`: compile the `time` facet into a solr
field-op filter clause; `ValueError`s are the `Except.error`
results. -/
def adjustTimeString (time : String) (timeSelect : String) :
    Except String (List String) :=
  if time = "" then .ok []
  else
    let time := stripWhitespace time
    match selectMethods.lookup timeSelect with
    | none =>
      .error ("Choose `time_select` from " ++
        pyJoin ", " (selectMethods.map (fun kv => kv.1)))
    | some solrSelect =>
      let (start, stop) := pyPartition2 (pyToLower time) "to"
      match parseInstant (if start = "" then "1" else start) defaultStart with
      | .error e => .error e
      | .ok st =>
        match parseInstant (if stop = "" then "9999" else stop) defaultEnd with
        | .error e => .error e
        | .ok en => .ok [timeRangeClause solrSelect st.isoformat en.isoformat]

/-- The `try/except ValueError` of `Solr.__init__` around
`adjust_time_string`: a `ValueError` is re-raised as
`HTTPException(status_code=500, detail=str(err))`. -/
def initTimePredicate (time timeSelect : String) :
    Except HTTPException (List String) :=
  (adjustTimeString time timeSelect).mapError (fun err => ⟨500, err⟩)

end Solr

/-! ## Bbox parsing (`Solr.adjust_bbox_string`) -/

/-- Python's `float()` on the decimal strings the bbox parser accepts:
optional sign, integral digits, optional fractional digits (exponent
forms are not needed by any claim and are rejected here). -/
def parseFloat (s : String) : Option Rat :=
  let (negSign, rest) :=
    if strStartsWith s "-" then (true, pyDrop s 1)
    else if strStartsWith s "+" then (false, pyDrop s 1) else (false, s)
  let signed (q : Rat) : Rat := if negSign then -q else q
  match (splitOnList ['.'] rest.data).map (fun l => (⟨l⟩ : String)) with
  | [intPart] =>
    if intPart.length ≠ 0 ∧ intPart.data.all Char.isDigit then
      some (signed (charsToNat intPart.data))
    else none
  | [intPart, fracPart] =>
    if (intPart = "" ∧ fracPart = "") ∨
        ¬intPart.data.all Char.isDigit ∨ ¬fracPart.data.all Char.isDigit then
      none
    else
      let iv : Nat := charsToNat intPart.data
      let fv : Nat := charsToNat fracPart.data
      some (signed ((iv : Rat) + (fv : Rat) / ((10 : Rat) ^ fracPart.length)))
  | _ => none

/-- Render a rational the way Python's `str(float)` renders the decimal
coordinates accepted by `parseFloat`: integral part, a dot, and the
fractional digits (`.0` when the value is integral). -/
def pyFloatStr (q : Rat) : String :=
  let sign := if q < 0 then "-" else ""
  let a := |q|
  let ip : Nat := a.floor.toNat
  let rec fracDigits (r : Rat) : Nat → String
    | 0 => ""
    | fuel + 1 =>
      if r = 0 then ""
      else
        let r10 := r * 10
        let d : Nat := r10.floor.toNat
        toString d ++ fracDigits (r10 - r10.floor) fuel
  let frac := fracDigits (a - a.floor) 30
  sign ++ toString ip ++ "." ++ (if frac = "" then "0" else frac)

namespace Solr

/-- `Solr.adjust_bbox_string`: compile the `bbox` facet into a solr RPT
spatial filter clause; `ValueError`s are the `Except.error` results. -/
def adjustBboxString (bbox : String) (bboxSelect : String) :
    Except String (List String) :=
  if bbox = "" then .ok []
  else
    let bbox := stripWhitespace bbox
    match selectMethods.lookup (pyToLower bboxSelect) with
    | none =>
      .error ("Choose `bbox_select` from " ++
        pyJoin ", " (selectMethods.map (fun kv => kv.1)))
    | some solrSelect =>
      let wrap (msg : String) : Except String (List String) :=
        .error ("Failed to parse bbox string: " ++ msg)
      match pySplit (pyToLower bbox) "by" with
      | [lonPart, latPart] =>
        match (pySplit lonPart ",").map parseFloat,
            (pySplit latPart ",").map parseFloat with
        | [some minLon, some maxLon], [some minLat, some maxLat] =>
          if ¬(-180 ≤ minLon ∧ minLon ≤ 180 ∧ -180 ≤ maxLon ∧ maxLon ≤ 180) then
            wrap "Longitude must be between -180 and 180"
          else if ¬(-90 ≤ minLat ∧ minLat ≤ 90 ∧ -90 ≤ maxLat ∧ maxLat ≤ 90) then
            wrap "Latitude must be between -90 and 90"
          else
            let bboxStr := "ENVELOPE(" ++ pyFloatStr minLon ++ "," ++
              pyFloatStr maxLon ++ "," ++ pyFloatStr maxLat ++ "," ++
              pyFloatStr minLat ++ ")"
            .ok ["bbox:\"" ++ solrSelect ++ "(" ++ bboxStr ++ ")\""]
        | _, _ => wrap "could not convert string to float"
      | _ => wrap "not enough values to unpack"

end Solr

/-! ## `Solr.__init__` and the object state -/

/-- The slice of the `Solr` object state that the claims are about. -/
structure SolrState where
  uniqKey : String
  flavour : String
  translate : Bool
  multiVersion : Bool
  time : List String
  bbox : List String
  facets : List (String × List String)
  url : String
  query : Solr.SolrQuery
deriving DecidableEq, Repr

namespace Solr

/-- `query.pop(key, default)` on the request's residual query map:
the looked-up value (or the default) paired with the map without the
key. -/
def pyPop (q : List (String × List String)) (key : String)
    (default : List String) : List String × List (String × List String) :=
  ((q.lookup key).getD default, q.filter (fun kv => kv.1 ≠ key))

/-- `Solr.__init__`: pop the special facets, compile the time and bbox
predicates (a `ValueError` becomes an `HTTPException` with status 500),
translate the residual facets backwards, compile the target url and
query via `_get_url`, and set `start` and the hard-coded
`sort = "file desc"`.  (`query.pop(...)[0]` indexes the first list
element; the embedding reads it with `headD`.) -/
def init (cfg : ServerConfig) (uniqKey : String) (flavour : String)
    (start : Int) (multiVersion : Bool) (translate : Bool)
    (query : List (String × List String)) : Except HTTPException SolrState :=
  let (timeRaw, query) := pyPop query "time" [""]
  let (timeSelect, query) := pyPop query "time_select" ["flexible"]
  match initTimePredicate (timeRaw.headD "") (timeSelect.headD "") with
  | .error err => .error err
  | .ok time =>
    let (bboxRaw, query) := pyPop query "bbox" [""]
    let (bboxSelect, query) := pyPop query "bbox_select" ["flexible"]
    match (adjustBboxString (bboxRaw.headD "") (bboxSelect.headD "")).mapError
        (fun err => (⟨500, err⟩ : HTTPException)) with
    | .error err => .error err
    | .ok bbox =>
      let (_, query) := pyPop query "stac_dynamic" [""]
      let facets := Translator.translateQuery flavour translate true query
      let (url, q) := getUrl cfg facets time bbox flavour multiVersion
      .ok { uniqKey := uniqKey, flavour := flavour, translate := translate,
            multiVersion := multiVersion, time := time, bbox := bbox,
            facets := facets, url := url,
            query := { q with start := some start, sort := some "file desc" } }

end Solr

/-! ## Cursor-mark pagination (`Solr._solr_page_response`) -/

/-- One page of a solr cursor-mark response: the documents (here, their
uniq-key values, the only record field the stream emits) and the
returned `nextCursorMark`. -/
structure SolrPage where
  docs : List String
  nextCursorMark : Nat
deriving DecidableEq, Repr

namespace Solr

/-- The `while True` loop of `Solr._solr_page_response`: request a page
for the current cursor mark (`rows` is set to `batch_size`); yield its
documents; stop when the returned next cursor mark equals the submitted
one, or when the response is empty/falsy (`none`).  Cursor marks are
opaque backend tokens, embedded as `Nat` with the initial mark `*`
embedded as `0`; `fuel` bounds the number of round trips, so that the
loop is total. -/
def solrPageLoop (session : Nat → Nat → Option SolrPage) (rows : Nat) :
    Nat → Nat → List String
  | 0, _ => []
  | fuel + 1, mark =>
    match session rows mark with
    | none => []
    | some page =>
      page.docs ++
        (if page.nextCursorMark = mark then []
         else solrPageLoop session rows fuel page.nextCursorMark)

/-- `Solr._solr_page_response`: the cursor mark starts at the initial
mark and `rows` is the batch size. -/
def solrPageResponse (session : Nat → Nat → Option SolrPage)
    (fuel : Nat) : List String :=
  solrPageLoop session batchSize fuel 0

end Solr

/-- Modelled from the solr cursor-mark interface contract (the index is
an external system): for a finite corpus held in the backend's sort
order, a page request at cursor position `mark` returns the next `rows`
documents and advances the cursor by the number of documents returned,
so the returned mark equals the submitted one exactly when no documents
remain. -/
def solrBackend (corpus : List String) (rows mark : Nat) :
    Option SolrPage :=
  let docs := (corpus.drop mark).take rows
  some { docs := docs, nextCursorMark := mark + docs.length }

/-! ## The `intake_catalogue` endpoint (`databrowser_api/endpoints.py`) -/

/-- The response of the `intake_catalogue` endpoint: an
`HTTPException`, or a streamed attachment. -/
inductive IntakeOutcome where
  | httpError (statusCode : Nat) (detail : String)
  | stream (fileName : String) (statusCode : Nat)
deriving DecidableEq, Repr

/-- The decision logic of the `intake_catalogue` endpoint after the
search has been initialised: 404 when the search found no rows, 413 when
the row count exceeds a positive `max_results`, otherwise stream the
catalogue as a named attachment with the search's status code. -/
def intakeCatalogueResponse (flavour uniqKey : String) (totalCount : Nat)
    (maxResults : Int) (searchStatus : Nat) : IntakeOutcome :=
  if totalCount = 0 then .httpError 404 "No results found."
  else if (totalCount : Int) > maxResults ∧ maxResults > 0 then
    .httpError 413 "Result stream too big."
  else
    .stream ("IntakeEsmCatalogue_" ++ flavour ++ "_" ++ uniqKey ++ ".json")
      searchStatus

/-! ## Chunk extraction and padding
(`data_portal_worker/zarr_utils.py`, `get_data_chunk`) -/

/-- An n-dimensional array: a shape and the value at each index vector
(only index vectors within the shape are meaningful). -/
structure NpArray (α : Type) where
  shape : List Nat
  data : List Nat → α

/-- Whether an index vector lies inside a shape on every axis. -/
def inBounds (ix shape : List Nat) : Bool :=
  ix.length = shape.length && (List.zip ix shape).all (fun p => p.1 < p.2)

/-- The padding step of `get_data_chunk`: when the materialised chunk's
shape differs from the declared `out_shape`, allocate a buffer of shape
`out_shape` with `np.empty_like` — uninitialised memory, whose arbitrary
contents are modelled by `junk` — and copy the chunk into the leading
slice `[0:s_i]` of each axis (`new_chunk[write_slice] = chunk_data`);
otherwise return the chunk unchanged. -/
def getDataChunk {α : Type} (chunkData : NpArray α) (outShape : List Nat)
    (junk : List Nat → α) : NpArray α :=
  if chunkData.shape = outShape then chunkData
  else
    { shape := outShape,
      data := fun ix =>
        if inBounds ix chunkData.shape then chunkData.data ix else junk ix }

/-! ## User metadata validation (`Solr._validate_user_metadata`) -/

namespace Solr

/-- The required ingestion fields. -/
def requiredFields : List String :=
  ["file", "variable", "time", "time_frequency"]

/-- `Solr._validate_user_metadata`: keep the records carrying all
required fields (the loop's `continue` skips the others) and set
`metadata["uri"] = metadata["file"]` on each kept record; when nothing
survives, raise a 422.  (The `file` lookup cannot miss: the required
check just ensured the key is present.) -/
def validateUserMetadata (userMetadata : List (List (String × String))) :
    Except HTTPException (List (List (String × String))) :=
  let validated :=
    (userMetadata.filter (fun metadata =>
        requiredFields.all (fun f => metadata.any (fun kv => kv.1 = f)))).map
      (fun metadata =>
        pyInsert metadata ("uri", (metadata.lookup "file").getD ""))
  if validated = [] then
    .error ⟨422, "No valid metadata found in the input."⟩
  else .ok validated

/-! ## Duplicate lookup (`Solr._is_query_duplicate`) -/

/-- The inner `escape_special_chars` of `_is_query_duplicate`: the
`escape_chars` loop (its `if char in value` guard is redundant with
`replace`) followed by escaping the double-quote. -/
def escapeSpecialCharsQuoted (value : String) : String :=
  pyReplace (luceneEscape value) "\"" "\\\""

/-- `Solr._is_query_duplicate` as a state transformer on the object's
`url` and `query` fields: point them at the latest core's 1-row
`uri:"…" OR file:"…"` lookup, run the backend call (`session` returns
the status code and `numFound`, or the `HTTPException` detail when the
connection failed), and restore the original `url` and `query` in the
`finally` block.  The first component is `True`/`False`/raised. -/
def isQueryDuplicate (cfg : ServerConfig)
    (session : String → SolrQuery → Except String (Nat × Nat))
    (uri filePath : String) (s : SolrState) :
    Except String Bool × SolrState :=
  let originalUrl := s.url
  let originalQuery := s.query
  let coreUrl := cfg.getCoreUrl (cfg.solrCores.getLastD "")
  let s := { s with url := coreUrl ++ "/select" }
  let escapedUri := escapeSpecialCharsQuoted uri
  let escapedFile := escapeSpecialCharsQuoted filePath
  let queryStr :=
    pyJoin " OR "
      ["uri:\"" ++ escapedUri ++ "\"", "file:\"" ++ escapedFile ++ "\""]
  let s := { s with
    query := { q := queryStr, fl := ["id"], rows := some 1, wt := some "json" } }
  let result : Except String Bool :=
    match session s.url s.query with
    | .ok (status, numFound) =>
      .ok (if status = 200 then decide (numFound > 0) else false)
    | .error e => .error e
  (result, { s with url := originalUrl, query := originalQuery })

end Solr

/-! ## Characterisation of the Lucene escape (used by the C5 theorems) -/

/-- The single-character members of `Solr.escapeChars` (the two-character
operators `&&` and `||` are handled separately). -/
def luceneSingles : List Char :=
  ['/', ':', '~', '^', ']', '[', '\x7d', '\x7b', ')', '(', '!', '-', '+']

/-- The per-character escaping map: every character in `S` gains exactly
one leading backslash, every other character — including the
double-quote — is kept unchanged. -/
def flatMapEsc (S : List Char) (l : List Char) : List Char :=
  l.flatMap (fun a => if a ∈ S then ['\\', a] else [a])

/-- One left-to-right pass describing the combined effect of the
`escape_chars` replacement loop: when enabled, the two-character
operators `&&` and `||` are escaped as units (non-overlapping, left to
right); a character in `S` gains exactly one leading backslash; every
other character — including the double-quote and the backslash — is
kept unchanged. -/
def escTok (S : List Char) (amp pipe : Bool) : List Char → List Char
  | [] => []
  | [a] => if a ∈ S then ['\\', a] else [a]
  | a :: b :: rest =>
    if amp ∧ a = '&' ∧ b = '&' then
      '\\' :: '&' :: '&' :: escTok S amp pipe rest
    else if pipe ∧ a = '|' ∧ b = '|' then
      '\\' :: '|' :: '|' :: escTok S amp pipe rest
    else
      (if a ∈ S then ['\\', a] else [a]) ++ escTok S amp pipe (b :: rest)

/-! ## Association-list lemmas used by the userdata theorems -/

theorem lookup_isSome_of_any {α : Type} (m : List (String × α)) (k : String)
    (h : m.any (fun kv => kv.1 = k) = true) : ∃ v, m.lookup k = some v := by
  induction m with
  | nil => simp at h
  | cons kv m ih =>
    obtain ⟨k1, v1⟩ := kv
    by_cases hk : k = k1
    · subst hk
      exact ⟨v1, by rw [List.lookup_cons, beq_self_eq_true]⟩
    · simp only [List.any_cons, Bool.or_eq_true, decide_eq_true_eq] at h
      rcases h with h | h
      · exact absurd h (fun e => hk e.symm)
      · rcases ih h with ⟨v, hv⟩
        exact ⟨v, by rw [List.lookup_cons, beq_false_of_ne hk]; exact hv⟩

theorem lookup_map_overwrite {α : Type} (d : List (String × α)) (k : String)
    (v : α) (h : d.any (fun p => p.1 = k) = true) :
    (d.map (fun p => if p.1 = k then (p.1, v) else p)).lookup k = some v := by
  induction d with
  | nil => simp at h
  | cons p d ih =>
    obtain ⟨k1, v1⟩ := p
    simp only [List.any_cons, Bool.or_eq_true, decide_eq_true_eq] at h
    rw [List.map_cons]
    dsimp only
    by_cases hp : k1 = k
    · subst hp
      rw [if_pos rfl, List.lookup_cons, beq_self_eq_true]
    · rcases h with h | h
      · exact absurd h hp
      · rw [if_neg hp, List.lookup_cons, beq_false_of_ne (fun e => hp e.symm)]
        exact ih h

theorem lookup_append_missing {α : Type} (d : List (String × α)) (k : String)
    (v : α) (h : d.any (fun p => p.1 = k) = false) :
    (d ++ [(k, v)]).lookup k = some v := by
  induction d with
  | nil => rw [List.nil_append, List.lookup_cons, beq_self_eq_true]
  | cons p d ih =>
    obtain ⟨k1, v1⟩ := p
    simp only [List.any_cons, Bool.or_eq_false_iff, decide_eq_false_iff_not] at h
    rw [List.cons_append, List.lookup_cons, beq_false_of_ne (fun e => h.1 e.symm)]
    exact ih h.2

theorem pyInsert_lookup_self {α : Type} (d : List (String × α)) (k : String)
    (v : α) : (pyInsert d (k, v)).lookup k = some v := by
  unfold pyInsert
  split
  next h => exact lookup_map_overwrite d k v h
  next h => exact lookup_append_missing d k v (Bool.eq_false_iff.mpr h)

theorem lookup_map_overwrite_ne {α : Type} (d : List (String × α))
    (k k' : String) (v : α) (h : k' ≠ k) :
    (d.map (fun p => if p.1 = k then (p.1, v) else p)).lookup k' = d.lookup k' := by
  induction d with
  | nil => simp
  | cons p d ih =>
    obtain ⟨k1, v1⟩ := p
    rw [List.map_cons]
    dsimp only
    by_cases hp : k1 = k
    · rw [if_pos hp, List.lookup_cons, List.lookup_cons,
        beq_false_of_ne (hp ▸ h : k' ≠ k1)]
      exact ih
    · rw [if_neg hp, List.lookup_cons, List.lookup_cons]
      by_cases hk : k' = k1
      · subst hk
        rw [beq_self_eq_true]
      · rw [beq_false_of_ne hk]
        exact ih

theorem lookup_append_single_ne {α : Type} (d : List (String × α))
    (k k' : String) (v : α) (h : k' ≠ k) :
    (d ++ [(k, v)]).lookup k' = d.lookup k' := by
  induction d with
  | nil => rw [List.nil_append, List.lookup_cons, beq_false_of_ne h]
  | cons p d ih =>
    obtain ⟨k1, v1⟩ := p
    rw [List.cons_append, List.lookup_cons, List.lookup_cons]
    by_cases hk : k' = k1
    · subst hk
      rw [beq_self_eq_true]
    · rw [beq_false_of_ne hk]
      exact ih

theorem pyInsert_lookup_ne {α : Type} (d : List (String × α)) (k k' : String)
    (v : α) (h : k' ≠ k) :
    (pyInsert d (k, v)).lookup k' = d.lookup k' := by
  unfold pyInsert
  split
  next => exact lookup_map_overwrite_ne d k k' v h
  next => exact lookup_append_single_ne d k k' v h

/-! ## Claim theorems -/

/-- C6: for every flavour F in \x7bfreva, cmip6, cmip5, cordex, nextgems,
user\x7d and every canonical facet name c in F's forward mapping,
`backward(F, forward(F, c)) = c`: each flavour's forward table is
injective, a bijection onto its image. -/
theorem translation_roundtrip :
    ∀ f ∈ Translator.flavours, ∀ kv ∈ Translator.forwardLookup f,
      (Translator.backwardLookup f).lookup kv.2 = some kv.1 := by decide

theorem translation_roundtrip_witness :
    ("variable", "variable_id") ∈ Translator.forwardLookup "cmip6" ∧
    (Translator.backwardLookup "cmip6").lookup "variable_id" = some "variable" :=
  ⟨by decide,
   translation_roundtrip "cmip6" (by decide) ("variable", "variable_id") (by decide)⟩

/-- C2: the claim states the compiled query orders records by the
caller's uniq_key descending (`sort = "<uniq_key> desc"`).  The code
(`core.py` line 449) hard-codes `self.query["sort"] = "file desc"`
instead: a search constructed with `uniq_key = "uri"` still sorts by
`file desc`, not `uri desc`.  (The sibling implementation
`src/databrowser/core.py` line 346 sets `f"\x7bself.uniq_key\x7d desc"`,
which is what the claim describes.) -/
theorem sort_hardcoded_file_desc :
    (Solr.init ⟨"http://localhost:8983", "files"⟩ "uri" "freva" 0 false true
        []).map (fun s => (s.uniqKey, s.query.sort)) =
      .ok ("uri", some "file desc") ∧
    "file desc" ≠ "uri desc" := by
  constructor
  · rfl
  · decide

/-- C7: the intake-catalogue export fails with 404 when the search
yields zero rows, fails with 413 when the total count exceeds a
positive caller-supplied `max_results`, and otherwise streams the
catalogue attachment (a non-positive `max_results`, such as the
default `-1`, disables the size check). -/
theorem intake_error_codes (flavour uniqKey : String) (totalCount : Nat)
    (maxResults : Int) (searchStatus : Nat) :
    (totalCount = 0 →
      intakeCatalogueResponse flavour uniqKey totalCount maxResults searchStatus =
        .httpError 404 "No results found.") ∧
    (0 < maxResults → maxResults < (totalCount : Int) →
      intakeCatalogueResponse flavour uniqKey totalCount maxResults searchStatus =
        .httpError 413 "Result stream too big.") ∧
    (totalCount ≠ 0 → ¬(0 < maxResults ∧ maxResults < (totalCount : Int)) →
      intakeCatalogueResponse flavour uniqKey totalCount maxResults searchStatus =
        .stream ("IntakeEsmCatalogue_" ++ flavour ++ "_" ++ uniqKey ++ ".json")
          searchStatus) := by
  refine ⟨fun h0 => ?_, fun hpos hlt => ?_, fun h0 hn => ?_⟩
  · simp [intakeCatalogueResponse, h0]
  · have h0 : totalCount ≠ 0 := by
      intro h
      rw [h] at hlt
      omega
    simp only [intakeCatalogueResponse, if_neg h0]
    rw [if_pos ⟨hlt, hpos⟩]
  · simp only [intakeCatalogueResponse, if_neg h0]
    rw [if_neg (fun hc => hn ⟨hc.2, hc.1⟩)]

theorem intake_error_codes_witness :
    intakeCatalogueResponse "freva" "file" 0 (-1) 200 =
      .httpError 404 "No results found." ∧
    intakeCatalogueResponse "freva" "file" 300 100 200 =
      .httpError 413 "Result stream too big." ∧
    intakeCatalogueResponse "freva" "uri" 300 (-1) 200 =
      .stream "IntakeEsmCatalogue_freva_uri.json" 200 := by
  refine ⟨(intake_error_codes "freva" "file" 0 (-1) 200).1 rfl, ?_, ?_⟩
  · exact (intake_error_codes "freva" "file" 300 100 200).2.1 (by decide) (by decide)
  · have h := (intake_error_codes "freva" "uri" 300 (-1) 200).2.2 (by decide)
      (by decide)
    rw [h]
    rfl

/-- C8 counterexample: the claim states the positions of the padded
chunk buffer outside the original data are filled with the dtype's fill
value.  `get_data_chunk` allocates the buffer with `np.empty_like`,
whose contents are uninitialised (the source comments: contents out of
bounds for the array are undefined).  For a 1-element chunk of `Int`
data with fill value `0` padded to `out_shape = [2]`, a run whose fresh
buffer happens to hold `7` returns `7` at the padded position, not the
fill value `0`. -/
theorem chunk_padding_junk_not_fill :
    (getDataChunk ⟨[1], fun _ => (0 : Int)⟩ [2] (fun _ => 7)).data [1] = 7 ∧
    (7 : Int) ≠ 0 := by
  constructor
  · rfl
  · decide

/-- C8 (amended): for every incomplete edge chunk whose data shape
differs from the declared chunk shape, the buffer produced has the
declared shape and contains the original data in the slice `[0:s_i]` of
each axis; the positions outside those slices hold the unspecified
contents of the uninitialised `np.empty_like` buffer (not the dtype's
fill value). -/
theorem chunk_padding_amended {α : Type} (chunkData : NpArray α)
    (outShape : List Nat) (junk : List Nat → α) :
    (getDataChunk chunkData outShape junk).shape = outShape ∧
    ∀ ix, inBounds ix chunkData.shape = true →
      (getDataChunk chunkData outShape junk).data ix = chunkData.data ix := by
  unfold getDataChunk
  split
  next h => exact ⟨h, fun ix _ => rfl⟩
  next h =>
    refine ⟨rfl, fun ix hix => ?_⟩
    simp only [hix, if_true]

theorem chunk_padding_amended_witness :
    (getDataChunk ⟨[1], fun _ => (3 : Int)⟩ [2] (fun _ => 7)).shape = [2] ∧
    (getDataChunk ⟨[1], fun _ => (3 : Int)⟩ [2] (fun _ => 7)).data [0] = 3 :=
  ⟨(chunk_padding_amended ⟨[1], fun _ => (3 : Int)⟩ [2] (fun _ => 7)).1,
   (chunk_padding_amended ⟨[1], fun _ => (3 : Int)⟩ [2] (fun _ => 7)).2 [0]
     (by decide)⟩

/-- C9 counterexample: the claim states a record that already carries a
`uri` value keeps it.  `_validate_user_metadata` executes
`metadata["uri"] = metadata["file"]` unconditionally, so a record
submitted with `uri = "https://b"` and `file = "/a.nc"` comes out of
validation with `uri = "/a.nc"`. -/
theorem userdata_uri_overwritten :
    (Solr.validateUserMetadata
        [[("file", "/a.nc"), ("variable", "tas"), ("time", "2000"),
          ("time_frequency", "mon"), ("uri", "https://b")]]).map
      (fun recs => recs.map (fun r => r.lookup "uri")) =
      .ok [some "/a.nc"] ∧
    some "/a.nc" ≠ some "https://b" := by
  constructor
  · rfl
  · decide

/-- C9 (amended): every record that passes user-data validation has its
`uri` field set to its `file` value — also when the record already
carried a different `uri`, which is overwritten. -/
theorem userdata_uri_set_to_file
    (userMetadata : List (List (String × String)))
    (recs : List (List (String × String)))
    (h : Solr.validateUserMetadata userMetadata = .ok recs) :
    ∀ r ∈ recs, ∃ fv, r.lookup "file" = some fv ∧ r.lookup "uri" = some fv := by
  unfold Solr.validateUserMetadata at h
  dsimp only at h
  split at h
  next => exact absurd h (by simp)
  next =>
    intro r hr
    rw [Except.ok.injEq] at h
    subst h
    rw [List.mem_map] at hr
    obtain ⟨m, hm, hr⟩ := hr
    rw [List.mem_filter] at hm
    have hfile : m.any (fun kv => kv.1 = "file") = true := by
      have := hm.2
      simp only [Solr.requiredFields, List.all_cons, Bool.and_eq_true] at this
      exact this.1
    obtain ⟨fv, hfv⟩ := lookup_isSome_of_any m "file" hfile
    refine ⟨fv, ?_, ?_⟩
    · rw [← hr, pyInsert_lookup_ne m "uri" "file" _ (by decide), hfv]
    · rw [← hr, pyInsert_lookup_self, hfv]
      rfl

theorem userdata_uri_set_to_file_witness :
    ∃ fv,
      (([("file", "/a.nc"), ("variable", "tas"), ("time", "2000"),
          ("time_frequency", "mon"), ("uri", "/a.nc")] :
            List (String × String)).lookup "file" = some fv) ∧
      (([("file", "/a.nc"), ("variable", "tas"), ("time", "2000"),
          ("time_frequency", "mon"), ("uri", "/a.nc")] :
            List (String × String)).lookup "uri" = some fv) :=
  userdata_uri_set_to_file
    [[("file", "/a.nc"), ("variable", "tas"), ("time", "2000"),
      ("time_frequency", "mon"), ("uri", "https://b")]]
    [[("file", "/a.nc"), ("variable", "tas"), ("time", "2000"),
      ("time_frequency", "mon"), ("uri", "/a.nc")]]
    (by rfl)
    [("file", "/a.nc"), ("variable", "tas"), ("time", "2000"),
      ("time_frequency", "mon"), ("uri", "/a.nc")]
    (by decide)

theorem take_append_drop_len {α : Type} (l : List α) (n : Nat) :
    l.take n ++ l.drop ((l.take n).length) = l := by
  rcases le_or_lt n l.length with h | h
  · rw [List.length_take, Nat.min_eq_left h, List.take_append_drop]
  · rw [List.take_of_length_le (le_of_lt h), List.drop_length, List.append_nil]

theorem solrPageLoop_drop (corpus : List String) (rows : Nat)
    (hrows : 1 ≤ rows) :
    ∀ (fuel mark : Nat), corpus.length ≤ mark + fuel →
      Solr.solrPageLoop (solrBackend corpus) rows fuel mark = corpus.drop mark := by
  intro fuel
  induction fuel with
  | zero =>
    intro mark h
    simp only [Solr.solrPageLoop]
    symm
    exact List.drop_eq_nil_of_le (by omega)
  | succ f ih =>
    intro mark h
    simp only [Solr.solrPageLoop, solrBackend]
    by_cases hend : corpus.length ≤ mark
    · have hdrop : corpus.drop mark = [] := List.drop_eq_nil_of_le hend
      simp [hdrop]
    · push_neg at hend
      have hlen : ((corpus.drop mark).take rows).length =
          min rows (corpus.length - mark) := by
        simp [List.length_take, List.length_drop]
      have hpos : 0 < ((corpus.drop mark).take rows).length := by
        rw [hlen]
        exact lt_min (by omega) (by omega)
      rw [if_neg (by omega)]
      rw [ih (mark + ((corpus.drop mark).take rows).length) (by omega)]
      rw [← List.drop_drop]
      exact take_append_drop_len _ _

/-- C3: over the modelled cursor-mark backend contract, the streamed
result loop of `_solr_page_response` terminates for every finite corpus:
pages are requested with `rows = batch_size = 150`, iteration stops
exactly when the returned next cursor mark equals the submitted one (or
the response is empty), the stream emits the whole corpus — each
document, hence each uniq_key, exactly once — and any fuel beyond
`corpus.length + 1` round trips is never consumed, so no uniq_key is
emitted twice within one response. -/
theorem cursor_pagination_terminates (corpus : List String) (fuel : Nat)
    (hfuel : corpus.length + 1 ≤ fuel) :
    Solr.batchSize = 150 ∧
    Solr.solrPageResponse (solrBackend corpus) fuel = corpus ∧
    (corpus.Nodup → (Solr.solrPageResponse (solrBackend corpus) fuel).Nodup) := by
  have h : Solr.solrPageResponse (solrBackend corpus) fuel = corpus := by
    have h0 := solrPageLoop_drop corpus Solr.batchSize (by decide) fuel 0
      (by omega)
    rw [List.drop_zero] at h0
    exact h0
  exact ⟨rfl, h, fun hnd => by rw [h]; exact hnd⟩

theorem cursor_pagination_terminates_witness :
    Solr.solrPageResponse (solrBackend ["a", "b"]) 3 = ["a", "b"] ∧
    (Solr.solrPageResponse (solrBackend ["a", "b"]) 3).Nodup :=
  ⟨(cursor_pagination_terminates ["a", "b"] 3 (by decide)).2.1,
   (cursor_pagination_terminates ["a", "b"] 3 (by decide)).2.2 (by decide)⟩

/-- C4: for every non-empty time string `<start> to <end>` with either
endpoint optional, the compiled time predicate defaults a missing start
to `0001-01-01T00:00:00` and a missing end to `9999-12-31T23:59:59`,
maps the selector `strict` to op `Within`, `flexible` to `Intersects`
and `file` to `Contains`, and an unknown selector or an unparsable
instant raises a `ValueError` that `__init__` surfaces to the caller as
an `HTTPException` with status 500. -/
theorem time_predicate_defaults_and_ops :
    (Solr.selectMethods.lookup "strict" = some "Within" ∧
     Solr.selectMethods.lookup "flexible" = some "Intersects" ∧
     Solr.selectMethods.lookup "file" = some "Contains") ∧
    (∀ (t stop sel op : String) (en : PyDatetime),
      t ≠ "" → Solr.selectMethods.lookup sel = some op →
      pyPartition2 (pyToLower (stripWhitespace t)) "to" = ("", stop) →
      stop ≠ "" → parseInstant stop defaultEnd = .ok en →
      Solr.adjustTimeString t sel =
        .ok [Solr.timeRangeClause op "0001-01-01T00:00:00" en.isoformat]) ∧
    (∀ (t start sel op : String) (st : PyDatetime),
      t ≠ "" → Solr.selectMethods.lookup sel = some op →
      pyPartition2 (pyToLower (stripWhitespace t)) "to" = (start, "") →
      start ≠ "" → parseInstant start defaultStart = .ok st →
      Solr.adjustTimeString t sel =
        .ok [Solr.timeRangeClause op st.isoformat "9999-12-31T23:59:59"]) ∧
    (∀ (t sel : String), t ≠ "" → Solr.selectMethods.lookup sel = none →
      Solr.initTimePredicate t sel =
        .error ⟨500, "Choose `time_select` from strict, flexible, file"⟩) ∧
    (∀ (t sel msg : String),
      Solr.adjustTimeString t sel = .error msg →
      Solr.initTimePredicate t sel = .error ⟨500, msg⟩) := by
  refine ⟨⟨rfl, rfl, rfl⟩, ?_, ?_, ?_, ?_⟩
  · intro t stop sel op en ht hsel hpart hstop hparse
    unfold Solr.adjustTimeString
    rw [if_neg ht]
    dsimp only
    rw [hsel, hpart]
    dsimp only
    rw [if_pos rfl,
      show parseInstant "1" defaultStart = Except.ok (⟨1, 1, 1, 0, 0, 0⟩ : PyDatetime) by decide]
    dsimp only
    rw [if_neg hstop, hparse]
    dsimp only
    rw [show PyDatetime.isoformat ⟨1, 1, 1, 0, 0, 0⟩ = "0001-01-01T00:00:00" from rfl]
  · intro t start sel op st ht hsel hpart hstart hparse
    unfold Solr.adjustTimeString
    rw [if_neg ht]
    dsimp only
    rw [hsel, hpart]
    dsimp only
    rw [if_neg hstart, hparse]
    dsimp only
    rw [if_pos rfl,
      show parseInstant "9999" defaultEnd = Except.ok (⟨9999, 12, 31, 23, 59, 59⟩ : PyDatetime) by decide]
    dsimp only
    rw [show PyDatetime.isoformat ⟨9999, 12, 31, 23, 59, 59⟩ = "9999-12-31T23:59:59" from rfl]
  · intro t sel ht hsel
    have ha : Solr.adjustTimeString t sel =
        .error "Choose `time_select` from strict, flexible, file" := by
      unfold Solr.adjustTimeString
      rw [if_neg ht]
      dsimp only
      rw [hsel]
      rfl
    unfold Solr.initTimePredicate
    rw [ha]
    rfl
  · intro t sel msg h
    unfold Solr.initTimePredicate
    rw [h]
    rfl

theorem time_predicate_defaults_and_ops_witness :
    Solr.adjustTimeString " to 2012" "strict" =
      .ok [Solr.timeRangeClause "Within" "0001-01-01T00:00:00"
        "2012-12-31T23:59:59"] ∧
    Solr.adjustTimeString "2000 to " "file" =
      .ok [Solr.timeRangeClause "Contains" "2000-01-01T00:00:00"
        "9999-12-31T23:59:59"] ∧
    Solr.initTimePredicate "2000" "bogus" =
      .error ⟨500, "Choose `time_select` from strict, flexible, file"⟩ ∧
    Solr.initTimePredicate "xx to 2000" "strict" =
      .error ⟨500, "Unknown string format: xx"⟩ := by
  have h := time_predicate_defaults_and_ops
  refine ⟨?_, ?_, ?_, ?_⟩
  · have hb := h.2.1 " to 2012" "2012" "strict" "Within"
      ⟨2012, 12, 31, 23, 59, 59⟩ (by decide) (by decide) (by decide)
      (by decide) (by decide)
    rw [hb]
    rfl
  · have hb := h.2.2.1 "2000 to " "2000" "file" "Contains"
      ⟨2000, 1, 1, 0, 0, 0⟩ (by decide) (by decide) (by decide)
      (by decide) (by decide)
    rw [hb]
    rfl
  · exact h.2.2.2.1 "2000" "bogus" (by decide) (by decide)
  · exact h.2.2.2.2 "xx to 2000" "strict" "Unknown string format: xx" (by decide)

theorem replaceList_nil (pat rep : List Char) : replaceList pat rep [] = [] := rfl

theorem replaceList_single_cons_ne (c x : Char) (rep xs : List Char)
    (h : c ≠ x) :
    replaceList [c] rep (x :: xs) = x :: replaceList [c] rep xs := by
  rw [replaceList_cons, if_neg]
  intro hcond
  have hpre := hcond.2
  simp [List.isPrefixOf] at hpre
  exact h hpre

theorem replaceList_single_cons_eq (c : Char) (rep xs : List Char) :
    replaceList [c] rep (c :: xs) = rep ++ replaceList [c] rep xs := by
  rw [replaceList_cons, if_pos ⟨by simp, by simp [List.isPrefixOf]⟩]
  rfl

theorem flatMapEsc_cons (S : List Char) (a : Char) (l : List Char) :
    flatMapEsc S (a :: l) =
      (if a ∈ S then ['\\', a] else [a]) ++ flatMapEsc S l := by
  simp [flatMapEsc]

theorem flatMapEsc_empty_set (l : List Char) : flatMapEsc [] l = l := by
  induction l with
  | nil => rfl
  | cons a l ih => rw [flatMapEsc_cons, if_neg (List.not_mem_nil a), ih]; rfl

theorem replaceList_single_step (c : Char) (S : List Char) (hc : c ∉ S)
    (hbs : c ≠ '\\') (l : List Char) :
    replaceList [c] ['\\', c] (flatMapEsc S l) = flatMapEsc (c :: S) l := by
  induction l with
  | nil => rfl
  | cons a l ih =>
    rw [flatMapEsc_cons, flatMapEsc_cons]
    by_cases haS : a ∈ S
    · have hca : c ≠ a := fun e => hc (e ▸ haS)
      rw [if_pos haS, if_pos (List.mem_cons_of_mem c haS)]
      show replaceList [c] ['\\', c] ('\\' :: a :: flatMapEsc S l) =
        '\\' :: a :: flatMapEsc (c :: S) l
      rw [replaceList_single_cons_ne c '\\' _ _ hbs,
        replaceList_single_cons_ne c a _ _ hca, ih]
    · by_cases hac : a = c
      · subst hac
        rw [if_neg haS, if_pos (List.mem_cons_self a S)]
        show replaceList [a] ['\\', a] (a :: flatMapEsc S l) =
          '\\' :: a :: flatMapEsc (a :: S) l
        rw [replaceList_single_cons_eq, ih]
        rfl
      · rw [if_neg haS, if_neg (by simp [hac, haS] : a ∉ c :: S)]
        show replaceList [c] ['\\', c] (a :: flatMapEsc S l) =
          a :: flatMapEsc (c :: S) l
        rw [replaceList_single_cons_ne c a _ _ (fun e => hac e.symm), ih]

theorem replaceList_double_skip (d x : Char) (rep xs : List Char)
    (hx : x ≠ d) :
    replaceList [d, d] rep (x :: xs) = x :: replaceList [d, d] rep xs := by
  rw [replaceList_cons, if_neg]
  rintro ⟨-, hpre⟩
  simp [List.isPrefixOf] at hpre
  exact hx hpre.1.symm

theorem replaceList_double_skip2 (d x : Char) (rep xs : List Char)
    (hx : x ≠ d) :
    replaceList [d, d] rep (d :: x :: xs) =
      d :: replaceList [d, d] rep (x :: xs) := by
  rw [replaceList_cons, if_neg]
  rintro ⟨-, hpre⟩
  simp [List.isPrefixOf] at hpre
  exact hx hpre.symm

theorem replaceList_double_match (d : Char) (rep xs : List Char) :
    replaceList [d, d] rep (d :: d :: xs) = rep ++ replaceList [d, d] rep xs := by
  rw [replaceList_cons, if_pos ⟨by simp, by simp [List.isPrefixOf]⟩]
  rfl

theorem replaceList_double_last (d x : Char) (rep : List Char) :
    replaceList [d, d] rep [x] = [x] := by
  rw [replaceList_cons, if_neg]
  · rfl
  · rintro ⟨-, hpre⟩
    rw [show List.isPrefixOf [d, d] [x] = ((d == x) && List.isPrefixOf [d] [])
      from rfl] at hpre
    rw [show List.isPrefixOf [d] ([] : List Char) = false from rfl,
      Bool.and_false] at hpre
    exact Bool.false_ne_true hpre

theorem escTok_nil (S : List Char) (amp pipe : Bool) :
    escTok S amp pipe [] = [] := rfl

theorem escTok_single (S : List Char) (amp pipe : Bool) (a : Char) :
    escTok S amp pipe [a] = if a ∈ S then ['\\', a] else [a] := rfl

theorem escTok_cons2 (S : List Char) (amp pipe : Bool) (a b : Char)
    (rest : List Char) :
    escTok S amp pipe (a :: b :: rest) =
      if amp ∧ a = '&' ∧ b = '&' then
        '\\' :: '&' :: '&' :: escTok S amp pipe rest
      else if pipe ∧ a = '|' ∧ b = '|' then
        '\\' :: '|' :: '|' :: escTok S amp pipe rest
      else
        (if a ∈ S then ['\\', a] else [a]) ++ escTok S amp pipe (b :: rest) := rfl

theorem flatMapEsc_cons_ne_head (S : List Char) (hS : '&' ∉ S) (b : Char)
    (hb : b ≠ '&') (rest : List Char) :
    ∃ y ys, flatMapEsc S (b :: rest) = y :: ys ∧ y ≠ '&' := by
  rw [flatMapEsc_cons]
  by_cases hbS : b ∈ S
  · exact ⟨'\\', b :: flatMapEsc S rest, by rw [if_pos hbS]; rfl, by decide⟩
  · exact ⟨b, flatMapEsc S rest, by rw [if_neg hbS]; rfl, hb⟩

theorem ampPass (S : List Char) (hS : '&' ∉ S) :
    ∀ (n : Nat) (l : List Char), l.length ≤ n →
      replaceList ['&', '&'] ['\\', '&', '&'] (flatMapEsc S l) =
        escTok S true false l := by
  intro n
  induction n with
  | zero =>
    intro l h
    have hl : l = [] := List.length_eq_zero.mp (Nat.le_zero.mp h)
    subst hl
    rfl
  | succ n ih =>
    intro l h
    match l with
    | [] => rfl
    | [a] =>
      rw [flatMapEsc_cons, escTok_single]
      by_cases haS : a ∈ S
      · have ha : a ≠ '&' := fun e => hS (e ▸ haS)
        rw [if_pos haS]
        show replaceList ['&', '&'] ['\\', '&', '&'] ['\\', a] = ['\\', a]
        rw [replaceList_double_skip '&' '\\' _ _ (by decide),
          replaceList_double_last]
      · rw [if_neg haS]
        show replaceList ['&', '&'] ['\\', '&', '&'] [a] = [a]
        rw [replaceList_double_last]
    | a :: b :: rest =>
      have hlb : (b :: rest).length ≤ n := by
        simp only [List.length_cons] at h ⊢
        omega
      have hlr : rest.length ≤ n := by
        simp only [List.length_cons] at h
        omega
      rw [flatMapEsc_cons]
      by_cases ha : a = '&'
      · subst ha
        rw [if_neg hS]
        by_cases hb : b = '&'
        · subst hb
          rw [flatMapEsc_cons, if_neg hS]
          show replaceList ['&', '&'] ['\\', '&', '&']
              ('&' :: '&' :: flatMapEsc S rest) =
            escTok S true false ('&' :: '&' :: rest)
          rw [replaceList_double_match, ih rest hlr, escTok_cons2,
            if_pos (show true = true ∧ ('&' : Char) = '&' ∧ ('&' : Char) = '&'
              from ⟨rfl, rfl, rfl⟩)]
          rfl
        · obtain ⟨y, ys, hy, hyne⟩ := flatMapEsc_cons_ne_head S hS b hb rest
          rw [hy]
          show replaceList ['&', '&'] ['\\', '&', '&'] ('&' :: y :: ys) =
            escTok S true false ('&' :: b :: rest)
          rw [replaceList_double_skip2 '&' y _ _ hyne, ← hy,
            ih (b :: rest) hlb, escTok_cons2,
            if_neg (show ¬(true = true ∧ ('&' : Char) = '&' ∧ b = '&') from
              fun hc => hb hc.2.2),
            if_neg (show ¬(false = true ∧ ('&' : Char) = '|' ∧ b = '|') from
              fun hc => Bool.false_ne_true hc.1),
            if_neg hS]
          rfl
      · rw [escTok_cons2,
          if_neg (show ¬(true = true ∧ a = '&' ∧ b = '&') from
            fun hc => ha hc.2.1),
          if_neg (show ¬(false = true ∧ a = '|' ∧ b = '|') from
            fun hc => Bool.false_ne_true hc.1)]
        by_cases haS : a ∈ S
        · rw [if_pos haS]
          show replaceList ['&', '&'] ['\\', '&', '&']
              ('\\' :: a :: flatMapEsc S (b :: rest)) =
            ['\\', a] ++ escTok S true false (b :: rest)
          rw [replaceList_double_skip '&' '\\' _ _ (by decide),
            replaceList_double_skip '&' a _ _ ha, ih (b :: rest) hlb]
          rfl
        · rw [if_neg haS]
          show replaceList ['&', '&'] ['\\', '&', '&']
              (a :: flatMapEsc S (b :: rest)) =
            [a] ++ escTok S true false (b :: rest)
          rw [replaceList_double_skip '&' a _ _ ha, ih (b :: rest) hlb]
          rfl

theorem escTok_head_shape (S : List Char) (amp pipe : Bool) (b : Char)
    (rest : List Char) :
    ∃ ys, escTok S amp pipe (b :: rest) = '\\' :: ys ∨
      escTok S amp pipe (b :: rest) = b :: ys := by
  cases rest with
  | nil =>
    rw [escTok_single]
    by_cases hbS : b ∈ S
    · rw [if_pos hbS]
      exact ⟨[b], Or.inl rfl⟩
    · rw [if_neg hbS]
      exact ⟨[], Or.inr rfl⟩
  | cons c rs =>
    rw [escTok_cons2]
    by_cases h1 : amp = true ∧ b = '&' ∧ c = '&'
    · rw [if_pos h1]
      exact ⟨'&' :: '&' :: escTok S amp pipe rs, Or.inl rfl⟩
    · rw [if_neg h1]
      by_cases h2 : pipe = true ∧ b = '|' ∧ c = '|'
      · rw [if_pos h2]
        exact ⟨'|' :: '|' :: escTok S amp pipe rs, Or.inl rfl⟩
      · rw [if_neg h2]
        by_cases hbS : b ∈ S
        · rw [if_pos hbS]
          exact ⟨b :: escTok S amp pipe (c :: rs), Or.inl rfl⟩
        · rw [if_neg hbS]
          exact ⟨escTok S amp pipe (c :: rs), Or.inr rfl⟩

theorem escTok_pipe_head (S : List Char) (hS : '|' ∉ S) (rest : List Char) :
    escTok S true false ('|' :: rest) = '|' :: escTok S true false rest := by
  cases rest with
  | nil =>
    rw [escTok_single, if_neg hS, escTok_nil]
  | cons c rs =>
    rw [escTok_cons2,
      if_neg (show ¬(true = true ∧ ('|' : Char) = '&' ∧ c = '&') from
        fun hc => absurd hc.2.1 (by decide)),
      if_neg (show ¬(false = true ∧ ('|' : Char) = '|' ∧ c = '|') from
        fun hc => Bool.false_ne_true hc.1),
      if_neg hS]
    rfl

theorem pipePass (S : List Char) (hSa : '&' ∉ S) (hS : '|' ∉ S) :
    ∀ (n : Nat) (l : List Char), l.length ≤ n →
      replaceList ['|', '|'] ['\\', '|', '|'] (escTok S true false l) =
        escTok S true true l := by
  intro n
  induction n with
  | zero =>
    intro l h
    have hl : l = [] := List.length_eq_zero.mp (Nat.le_zero.mp h)
    subst hl
    rfl
  | succ n ih =>
    intro l h
    match l with
    | [] => rfl
    | [a] =>
      rw [escTok_single, escTok_single]
      by_cases haS : a ∈ S
      · rw [if_pos haS]
        rw [replaceList_double_skip '|' '\\' _ _ (by decide),
          replaceList_double_last]
      · rw [if_neg haS]
        rw [replaceList_double_last]
    | a :: b :: rest =>
      have hlb : (b :: rest).length ≤ n := by
        simp only [List.length_cons] at h ⊢
        omega
      have hlr : rest.length ≤ n := by
        simp only [List.length_cons] at h
        omega
      rw [escTok_cons2, escTok_cons2]
      by_cases h1 : true = true ∧ a = '&' ∧ b = '&'
      · rw [if_pos h1, if_pos h1]
        rw [replaceList_double_skip '|' '\\' _ _ (by decide),
          replaceList_double_skip '|' '&' _ _ (by decide),
          replaceList_double_skip '|' '&' _ _ (by decide),
          ih rest hlr]
      · rw [if_neg h1, if_neg h1,
          if_neg (show ¬(false = true ∧ a = '|' ∧ b = '|') from
            fun hc => Bool.false_ne_true hc.1)]
        by_cases h2 : true = true ∧ a = '|' ∧ b = '|'
        · rw [if_pos h2]
          obtain ⟨-, ha, hb⟩ := h2
          subst ha
          subst hb
          rw [if_neg hS, escTok_pipe_head S hS rest]
          show replaceList ['|', '|'] ['\\', '|', '|']
              ('|' :: '|' :: escTok S true false rest) =
            '\\' :: '|' :: '|' :: escTok S true true rest
          rw [replaceList_double_match, ih rest hlr]
          rfl
        · rw [if_neg h2]
          by_cases haS : a ∈ S
          · rw [if_pos haS]
            have ha : a ≠ '|' := fun e => hS (e ▸ haS)
            show replaceList ['|', '|'] ['\\', '|', '|']
                ('\\' :: a :: escTok S true false (b :: rest)) =
              ['\\', a] ++ escTok S true true (b :: rest)
            rw [replaceList_double_skip '|' '\\' _ _ (by decide),
              replaceList_double_skip '|' a _ _ ha, ih (b :: rest) hlb]
            rfl
          · rw [if_neg haS]
            by_cases hap : a = '|'
            · have hb : b ≠ '|' := fun e => h2 ⟨rfl, hap, e⟩
              subst hap
              obtain ⟨ys, hy⟩ := escTok_head_shape S true false b rest
              rcases hy with hy | hy
              · rw [hy]
                show replaceList ['|', '|'] ['\\', '|', '|']
                    ('|' :: '\\' :: ys) =
                  ['|'] ++ escTok S true true (b :: rest)
                rw [replaceList_double_skip2 '|' '\\' _ _ (by decide), ← hy,
                  ih (b :: rest) hlb]
                rfl
              · rw [hy]
                show replaceList ['|', '|'] ['\\', '|', '|'] ('|' :: b :: ys) =
                  ['|'] ++ escTok S true true (b :: rest)
                rw [replaceList_double_skip2 '|' b _ _ hb, ← hy,
                  ih (b :: rest) hlb]
                rfl
            · show replaceList ['|', '|'] ['\\', '|', '|']
                  (a :: escTok S true false (b :: rest)) =
                [a] ++ escTok S true true (b :: rest)
              rw [replaceList_double_skip '|' a _ _ hap, ih (b :: rest) hlb]
              rfl

theorem singlePass (c : Char) (S : List Char) (hc : c ∉ S) (hc1 : c ≠ '\\')
    (hc2 : c ≠ '&') (hc3 : c ≠ '|') :
    ∀ (n : Nat) (l : List Char), l.length ≤ n →
      replaceList [c] ['\\', c] (escTok S true true l) =
        escTok (c :: S) true true l := by
  intro n
  induction n with
  | zero =>
    intro l h
    have hl : l = [] := List.length_eq_zero.mp (Nat.le_zero.mp h)
    subst hl
    rfl
  | succ n ih =>
    intro l h
    match l with
    | [] => rfl
    | [a] =>
      rw [escTok_single, escTok_single]
      by_cases haS : a ∈ S
      · have hanc : a ≠ c := fun e => hc (e ▸ haS)
        rw [if_pos haS, if_pos (List.mem_cons_of_mem c haS)]
        show replaceList [c] ['\\', c] ['\\', a] = ['\\', a]
        rw [replaceList_single_cons_ne c '\\' _ _ hc1,
          replaceList_single_cons_ne c a _ _ (Ne.symm hanc)]
        rfl
      · by_cases hac : a = c
        · subst hac
          rw [if_neg haS, if_pos (List.mem_cons_self a S)]
          show replaceList [a] ['\\', a] [a] = ['\\', a]
          rw [replaceList_single_cons_eq]
          rfl
        · rw [if_neg haS, if_neg (show a ∉ c :: S from by simp [hac, haS])]
          show replaceList [c] ['\\', c] [a] = [a]
          rw [replaceList_single_cons_ne c a _ _ (fun e => hac e.symm)]
          rfl
    | a :: b :: rest =>
      have hlb : (b :: rest).length ≤ n := by
        simp only [List.length_cons] at h ⊢
        omega
      have hlr : rest.length ≤ n := by
        simp only [List.length_cons] at h
        omega
      rw [escTok_cons2, escTok_cons2]
      by_cases h1 : true = true ∧ a = '&' ∧ b = '&'
      · rw [if_pos h1, if_pos h1]
        show replaceList [c] ['\\', c]
            ('\\' :: '&' :: '&' :: escTok S true true rest) =
          '\\' :: '&' :: '&' :: escTok (c :: S) true true rest
        rw [replaceList_single_cons_ne c '\\' _ _ hc1,
          replaceList_single_cons_ne c '&' _ _ hc2,
          replaceList_single_cons_ne c '&' _ _ hc2, ih rest hlr]
      · rw [if_neg h1, if_neg h1]
        by_cases h2 : true = true ∧ a = '|' ∧ b = '|'
        · rw [if_pos h2, if_pos h2]
          show replaceList [c] ['\\', c]
              ('\\' :: '|' :: '|' :: escTok S true true rest) =
            '\\' :: '|' :: '|' :: escTok (c :: S) true true rest
          rw [replaceList_single_cons_ne c '\\' _ _ hc1,
            replaceList_single_cons_ne c '|' _ _ hc3,
            replaceList_single_cons_ne c '|' _ _ hc3, ih rest hlr]
        · rw [if_neg h2, if_neg h2]
          by_cases haS : a ∈ S
          · rw [if_pos haS, if_pos (List.mem_cons_of_mem c haS)]
            have hca : c ≠ a := fun e => hc (e ▸ haS)
            show replaceList [c] ['\\', c]
                ('\\' :: a :: escTok S true true (b :: rest)) =
              ['\\', a] ++ escTok (c :: S) true true (b :: rest)
            rw [replaceList_single_cons_ne c '\\' _ _ hc1,
              replaceList_single_cons_ne c a _ _ hca, ih (b :: rest) hlb]
            rfl
          · by_cases hac : a = c
            · subst hac
              rw [if_neg haS, if_pos (List.mem_cons_self a S)]
              show replaceList [a] ['\\', a]
                  (a :: escTok S true true (b :: rest)) =
                ['\\', a] ++ escTok (a :: S) true true (b :: rest)
              rw [replaceList_single_cons_eq, ih (b :: rest) hlb]
            · rw [if_neg haS, if_neg (show a ∉ c :: S from by simp [hac, haS])]
              show replaceList [c] ['\\', c]
                  (a :: escTok S true true (b :: rest)) =
                [a] ++ escTok (c :: S) true true (b :: rest)
              rw [replaceList_single_cons_ne c a _ _ (fun e => hac e.symm),
                ih (b :: rest) hlb]
              rfl

theorem luceneEscape_eq_escTok (v : String) :
    Solr.luceneEscape v = ⟨escTok luceneSingles true true v.data⟩ := by
  have e1 := replaceList_single_step '+' [] (by decide) (by decide) v.data
  rw [flatMapEsc_empty_set] at e1
  have e2 := replaceList_single_step '-' ['+'] (by decide) (by decide) v.data
  have e3 := ampPass ['-', '+'] (by decide) v.data.length v.data (Nat.le_refl _)
  have e4 := pipePass ['-', '+'] (by decide) (by decide) v.data.length v.data
    (Nat.le_refl _)
  have e5 := singlePass '!' ['-', '+'] (by decide) (by decide) (by decide)
    (by decide) v.data.length v.data (Nat.le_refl _)
  have e6 := singlePass '(' ['!', '-', '+'] (by decide) (by decide) (by decide)
    (by decide) v.data.length v.data (Nat.le_refl _)
  have e7 := singlePass ')' ['(', '!', '-', '+'] (by decide) (by decide)
    (by decide) (by decide) v.data.length v.data (Nat.le_refl _)
  have e8 := singlePass '\x7b' [')', '(', '!', '-', '+'] (by decide) (by decide)
    (by decide) (by decide) v.data.length v.data (Nat.le_refl _)
  have e9 := singlePass '\x7d' ['\x7b', ')', '(', '!', '-', '+'] (by decide)
    (by decide) (by decide) (by decide) v.data.length v.data (Nat.le_refl _)
  have e10 := singlePass '[' ['\x7d', '\x7b', ')', '(', '!', '-', '+']
    (by decide) (by decide) (by decide) (by decide) v.data.length v.data
    (Nat.le_refl _)
  have e11 := singlePass ']' ['[', '\x7d', '\x7b', ')', '(', '!', '-', '+']
    (by decide) (by decide) (by decide) (by decide) v.data.length v.data
    (Nat.le_refl _)
  have e12 := singlePass '^' [']', '[', '\x7d', '\x7b', ')', '(', '!', '-', '+']
    (by decide) (by decide) (by decide) (by decide) v.data.length v.data
    (Nat.le_refl _)
  have e13 := singlePass '~'
    ['^', ']', '[', '\x7d', '\x7b', ')', '(', '!', '-', '+']
    (by decide) (by decide) (by decide) (by decide) v.data.length v.data
    (Nat.le_refl _)
  have e14 := singlePass ':'
    ['~', '^', ']', '[', '\x7d', '\x7b', ')', '(', '!', '-', '+']
    (by decide) (by decide) (by decide) (by decide) v.data.length v.data
    (Nat.le_refl _)
  have e15 := singlePass '/'
    [':', '~', '^', ']', '[', '\x7d', '\x7b', ')', '(', '!', '-', '+']
    (by decide) (by decide) (by decide) (by decide) v.data.length v.data
    (Nat.le_refl _)
  have hdata : (Solr.luceneEscape v).data =
      escTok luceneSingles true true v.data := by
    simp only [Solr.luceneEscape, Solr.escapeChars, List.foldl_cons,
      List.foldl_nil, pyReplace]
    rw [show ("\\" ++ "+" : String).data = ['\\', '+'] from rfl,
      show ("\\" ++ "-" : String).data = ['\\', '-'] from rfl,
      show ("\\" ++ "&&" : String).data = ['\\', '&', '&'] from rfl,
      show ("\\" ++ "||" : String).data = ['\\', '|', '|'] from rfl,
      show ("\\" ++ "!" : String).data = ['\\', '!'] from rfl,
      show ("\\" ++ "(" : String).data = ['\\', '('] from rfl,
      show ("\\" ++ ")" : String).data = ['\\', ')'] from rfl,
      show ("\\" ++ "\x7b" : String).data = ['\\', '\x7b'] from rfl,
      show ("\\" ++ "\x7d" : String).data = ['\\', '\x7d'] from rfl,
      show ("\\" ++ "[" : String).data = ['\\', '['] from rfl,
      show ("\\" ++ "]" : String).data = ['\\', ']'] from rfl,
      show ("\\" ++ "^" : String).data = ['\\', '^'] from rfl,
      show ("\\" ++ "~" : String).data = ['\\', '~'] from rfl,
      show ("\\" ++ ":" : String).data = ['\\', ':'] from rfl,
      show ("\\" ++ "/" : String).data = ['\\', '/'] from rfl]
    rw [e1, e2, e3, e4, e5, e6, e7, e8, e9, e10, e11, e12, e13, e14, e15]
    rfl
  rcases hE2 : Solr.luceneEscape v with ⟨l⟩
  rw [hE2] at hdata
  exact congrArg String.mk hdata

theorem escTok_quote_head (l : List Char) :
    escTok luceneSingles true true ('"' :: l) =
      '"' :: escTok luceneSingles true true l := by
  cases l with
  | nil =>
    rw [escTok_single,
      if_neg (show ('"' : Char) ∉ luceneSingles from by decide), escTok_nil]
  | cons b rest =>
    rw [escTok_cons2,
      if_neg (show ¬(true = true ∧ ('"' : Char) = '&' ∧ b = '&') from
        fun hc => absurd hc.2.1 (by decide)),
      if_neg (show ¬(true = true ∧ ('"' : Char) = '|' ∧ b = '|') from
        fun hc => absurd hc.2.1 (by decide)),
      if_neg (show ('"' : Char) ∉ luceneSingles from by decide)]
    rfl

/-- C5 (amended): every facet value string embedded in a compiled facet
filter clause (positive and negated alike) is exactly the result of one
left-to-right escaping pass over the joined values: each occurrence of
the two-character operators `&&` and `||` and of the single-character
specials `+ - ! ( ) \x7b \x7d [ ] ^ ~ : /` receives exactly one leading
backslash (two-character operators matched first, non-overlapping),
while the double-quote character is not in the escape set and is passed
through unchanged. -/
theorem facet_escaping_amended :
    (∀ v : String,
      Solr.luceneEscape v = ⟨escTok luceneSingles true true v.data⟩) ∧
    (∀ (key : String) (facets : List String),
      Solr.joinFacetQueries key facets =
        (⟨escTok luceneSingles true true
            (pyJoin " OR " (Solr.partitionFacetValues key facets).2).data⟩,
         ⟨escTok luceneSingles true true
            (pyJoin " OR " (Solr.partitionFacetValues key facets).1).data⟩)) ∧
    '"' ∉ luceneSingles ∧
    (∀ l : List Char,
      escTok luceneSingles true true ('"' :: l) =
        '"' :: escTok luceneSingles true true l) := by
  refine ⟨luceneEscape_eq_escTok, ?_, by decide, escTok_quote_head⟩
  intro key facets
  unfold Solr.joinFacetQueries
  rcases hp : Solr.partitionFacetValues key facets with ⟨neg, pos⟩
  dsimp only
  rw [luceneEscape_eq_escTok (pyJoin " OR " pos),
    luceneEscape_eq_escTok (pyJoin " OR " neg)]

/-- C5 counterexample: the claim also asserts the double-quote is
escaped before embedding.  `_join_facet_queries` only escapes
`escape_chars`, which does not contain the double-quote: the value
`a"b` is embedded verbatim, with no backslash anywhere in the compiled
clause. -/
theorem facet_quote_not_escaped :
    (Solr.joinFacetQueries "file" ["a\"b"]).1 = "a\"b" ∧
    '\\' ∉ (Solr.joinFacetQueries "file" ["a\"b"]).1.data := by
  constructor
  · decide
  · decide

theorem facet_escaping_amended_witness :
    (Solr.joinFacetQueries "project" ["a&&b:c\"d"]).1 = "a\\&&b\\:c\"d" := by
  rw [facet_escaping_amended.2.1 "project" ["a&&b:c\"d"]]
  decide

/-- C1: every compiled search query contains a user-scope filter clause.
When the flavour is `user` the clause `user:*` is in the compiled `fq`
(records must have an owner); for every other flavour the compiled `fq`
contains the `-user:*` clause (carrying the `\x7b!ex=userTag\x7d`
facet-tag local params, which do not affect document matching:
stripping them yields exactly `-user:*`), so that no record with a
non-empty `user` field satisfies all the compiled filter clauses of a
search whose flavour differs from `user`. -/
theorem user_scope_filter_clause (cfg : ServerConfig)
    (facets : List (String × List String)) (time bbox : List String)
    (flavour : String) (multiVersion : Bool) :
    (flavour = "user" →
      "user:*" ∈ (Solr.getUrl cfg facets time bbox flavour multiVersion).2.fq) ∧
    (flavour ≠ "user" →
      "\x7b!ex=userTag\x7d-user:*" ∈
        (Solr.getUrl cfg facets time bbox flavour multiVersion).2.fq ∧
      stripLocalParams "\x7b!ex=userTag\x7d-user:*" = "-user:*" ∧
      ∀ user : Option String, user.isSome = true →
        ((Solr.getUrl cfg facets time bbox flavour multiVersion).2.fq.all
          (fun c => userScopeMatches c user)) = false) := by
  constructor
  · intro hf
    subst hf
    simp only [Solr.getUrl]
    apply List.mem_filter.mpr
    refine ⟨?_, by decide⟩
    simp
  · intro hf
    have hmem : "\x7b!ex=userTag\x7d-user:*" ∈
        (Solr.getUrl cfg facets time bbox flavour multiVersion).2.fq := by
      simp only [Solr.getUrl]
      rw [if_neg hf]
      apply List.mem_filter.mpr
      refine ⟨?_, by decide⟩
      simp
    refine ⟨hmem, by decide, ?_⟩
    intro user hu
    cases user with
    | none => simp at hu
    | some u =>
      apply Bool.eq_false_iff.mpr
      intro hall
      have hv := List.all_eq_true.mp hall _ hmem
      have hfalse : userScopeMatches "\x7b!ex=userTag\x7d-user:*" (some u) = false :=
        rfl
      rw [hfalse] at hv
      exact Bool.false_ne_true hv

theorem user_scope_filter_clause_witness :
    "user:*" ∈ (Solr.getUrl ⟨"http://l", "files"⟩ [] [] [] "user" true).2.fq ∧
    "\x7b!ex=userTag\x7d-user:*" ∈
      (Solr.getUrl ⟨"http://l", "files"⟩ [] [] [] "freva" true).2.fq ∧
    ((Solr.getUrl ⟨"http://l", "files"⟩ [] [] [] "freva" true).2.fq.all
      (fun c => userScopeMatches c (some "jane"))) = false := by
  refine ⟨(user_scope_filter_clause ⟨"http://l", "files"⟩ [] [] [] "user" true).1
    rfl, ?_, ?_⟩
  · exact ((user_scope_filter_clause ⟨"http://l", "files"⟩ [] [] [] "freva"
      true).2 (by decide)).1
  · exact ((user_scope_filter_clause ⟨"http://l", "files"⟩ [] [] [] "freva"
      true).2 (by decide)).2.2 (some "jane") rfl

/-- C10: the per-candidate duplicate-check lookup leaves the search
object's compiled state unchanged — after `_is_query_duplicate` returns
(duplicate found, not found, or the backend call raised, i.e. for every
possible `session` outcome), the object's `url` and `query` fields equal
their values from before the lookup. -/
theorem duplicate_check_preserves_state (cfg : ServerConfig)
    (session : String → Solr.SolrQuery → Except String (Nat × Nat))
    (uri filePath : String) (s : SolrState) :
    (Solr.isQueryDuplicate cfg session uri filePath s).2.url = s.url ∧
    (Solr.isQueryDuplicate cfg session uri filePath s).2.query = s.query := by
  constructor <;> rfl

end Freva
